import Mathlib

/-!
Verification of the metric-evaluation and score-fusion engine of the
ai-translation-benchmark backend (`backend/app/evaluation/`).

Modelling conventions:
- Python floats are modelled as exact rationals (`ℚ`).
- Python strings are `String` / `List Char`; the character classes
  (`\w`, `\d`, `str.punctuation`, upper/lower case) are modelled on the
  ASCII fragment the program's test data exercises.
- The Python dict of metric outcomes handed to `ScoreFusion.fuse_scores`
  is an association list preserving insertion order.
- The external language detector (`langdetect.detect_langs`) and the
  external embedding model (`SentenceTransformer`) are inputs: an
  evaluation receives their outcome (a ranked probability list or a
  failure, resp. a cosine-similarity value or a failure) as a value.
-/

/-- `app/core/constants.py`: `METRIC_OVERALL = "overall_score"`. -/
def METRIC_OVERALL : String := "overall_score"

/-- `app/core/constants.py`: `LENGTH_RATIO_MIN = 0.5`. -/
def LENGTH_RATIO_MIN : ℚ := 1/2

/-- `app/core/constants.py`: `LENGTH_RATIO_MAX = 2.0`. -/
def LENGTH_RATIO_MAX : ℚ := 2

/-- `app/core/constants.py`: `MAX_NGRAM_SIZE = 4`. -/
def MAX_NGRAM_SIZE : Nat := 4

/-- `app/core/constants.py`: `REPETITION_THRESHOLD = 0.3`. -/
def REPETITION_THRESHOLD : ℚ := 3/10

/-- Default `confidence_threshold` of `LanguageDetectionMetric.__init__`. -/
def DEFAULT_CONFIDENCE_THRESHOLD : ℚ := 4/5

/-- `app/core/constants.py`: `WARN_LOW_CONFIDENCE`. -/
def WARN_LOW_CONFIDENCE : String := "Low confidence in language detection"

/-- `app/core/constants.py`: `WARN_LENGTH_ANOMALY`. -/
def WARN_LENGTH_ANOMALY : String := "Unusual length ratio detected"

/-- `app/core/constants.py`: `WARN_HIGH_REPETITION`. -/
def WARN_HIGH_REPETITION : String := "High repetition detected in translation"

/-- `app/core/constants.py`: `WARN_CONTENT_LOSS`. -/
def WARN_CONTENT_LOSS : String := "Potential content loss detected"

/-- `app/core/constants.py`: `WARN_FORMAT_DRIFT`. -/
def WARN_FORMAT_DRIFT : String := "Format preservation issues detected"

/-- A single-quote character, used inside warning texts. -/
def quoteMark : String := String.mk [Char.ofNat 39]

-- The rational operations of the Batteries library are sealed for
-- rewriting hygiene; concrete score computations below evaluate them,
-- so they are re-exposed to kernel reduction here.
set_option allowUnsafeReducibility true

attribute [semireducible] Rat.add Rat.mul Rat.sub Rat.div Rat.neg Rat.inv

/-- Python truthiness of a string-or-None (`if warning:`). -/
def warnTruthy (o : Option String) : Bool := o.getD "" != ""

/-- Python `not s or not s.strip()`: the string is empty or whitespace-only. -/
def isBlank (s : String) : Bool := s.data.all Char.isWhitespace

/-- Python `str.split()` (split on whitespace runs, dropping empties),
on a character list.  The accumulator holds the current word reversed. -/
def tokenizeAux : List Char → List Char → List (List Char)
  | [], acc => if acc.isEmpty then [] else [acc.reverse]
  | c :: cs, acc =>
    if c.isWhitespace then
      if acc.isEmpty then tokenizeAux cs [] else acc.reverse :: tokenizeAux cs []
    else tokenizeAux cs (c :: acc)

/-- A whitespace-delimited token. -/
abbrev Token := List Char

/-- Python `text.split()`. -/
def pySplit (s : String) : List Token := tokenizeAux s.data []

/-- Separator-joined concatenation, Python `sep.join(xs)`. -/
def joinWith (sep : String) : List String → String
  | [] => ""
  | [x] => x
  | x :: y :: xs => x ++ sep ++ joinWith sep (y :: xs)

/-- Round a rational to the nearest integer, ties to even (the rounding
used when Python formats a float with a fixed number of decimals). -/
def ratRoundHalfEven (q : ℚ) : ℤ :=
  let f : ℤ := ⌊q⌋
  let frac : ℚ := q - (f : ℚ)
  if frac < 1/2 then f
  else if (1 : ℚ)/2 < frac then f + 1
  else if f % 2 = 0 then f else f + 1

/-- Left-pad a numeral string with zeros to the given width. -/
def padZeros (n : Nat) (s : String) : String :=
  if n ≤ s.length then s else String.mk (List.replicate (n - s.length) '0') ++ s

/-- Python `f"{q:.df}"` fixed-point formatting, modelled on exact
rationals (round half to even at the last kept decimal). -/
def formatFixed (decimals : Nat) (q : ℚ) : String :=
  let p : ℤ := (10 : ℤ) ^ decimals
  let n : ℤ := ratRoundHalfEven (q * (p : ℚ))
  let a : Nat := n.natAbs
  let ip : Nat := a / 10 ^ decimals
  let fp : Nat := a % 10 ^ decimals
  let sign := if n < 0 then "-" else ""
  if decimals = 0 then sign ++ toString ip
  else sign ++ toString ip ++ "." ++ padZeros decimals (toString fp)

/-- Python `str.title()` on a character list: upper-case a letter that
does not follow a letter, lower-case a letter that does. -/
def titleAux : Bool → List Char → List Char
  | _, [] => []
  | prevAlpha, c :: cs =>
    (if c.isAlpha then (if prevAlpha then c.toLower else c.toUpper) else c)
      :: titleAux c.isAlpha cs

/-- Python `str.title()`. -/
def pyTitle (cs : List Char) : String := String.mk (titleAux false cs)

/-! ## Data model (`app/schemas/evaluation.py`) -/

/-- One metric outcome as consumed by `ScoreFusion.fuse_scores`: the
`score` and optional `warning` entries of the metric's result dict (the
remaining entries are diagnostic details no fusion decision reads). -/
structure MetricData where
  score : ℚ
  warning : Option String
deriving DecidableEq

/-- `MetricResult` (`app/schemas/evaluation.py`); `details` is the full
result dict of the metric, modelled by its fusion-relevant projection. -/
structure MetricResult where
  name : String
  value : ℚ
  weight : ℚ
  details : MetricData
deriving DecidableEq

/-- `ScoreBreakdown` (`app/schemas/evaluation.py`). -/
structure ScoreBreakdown where
  overall_score : ℚ
  metrics : List MetricResult
  warnings : List String
  explanation : String
deriving DecidableEq

/-- `EvaluationResult` (`app/schemas/evaluation.py`). -/
structure EvaluationResult where
  translation_id : ℤ
  provider_name : String
  model_id : String
  score_breakdown : ScoreBreakdown
deriving DecidableEq

/-! ## Score fusion (`app/evaluation/scorer.py`) -/

/-- The metric weights the configuration resolves for the five metric
names of `ScoreFusion._get_metric_weight`'s lookup table. -/
structure FusionConfig where
  language_detection_weight : ℚ
  length_ratio_weight : ℚ
  repetition_weight : ℚ
  preservation_weight : ℚ
  semantic_weight : ℚ
deriving DecidableEq

/-- `ScoreFusion._get_metric_weight`: map a metric name to its
configured weight; unknown names resolve to 0. -/
def get_metric_weight (cfg : FusionConfig) (metric_name : String) : ℚ :=
  if metric_name = "language_detection" then cfg.language_detection_weight
  else if metric_name = "length_ratio" then cfg.length_ratio_weight
  else if metric_name = "repetition" then cfg.repetition_weight
  else if metric_name = "preservation" then cfg.preservation_weight
  else if metric_name = "semantic_similarity" then cfg.semantic_weight
  else 0

/-- The accumulation loop of `ScoreFusion.fuse_scores`: builds, in input
order, the `weighted_scores` list, the `metric_list` and the prefixed
`warnings` of the kept (positive-weight, non-`overall_score`) metrics. -/
def processMetrics (cfg : FusionConfig) :
    List (String × MetricData) → List ℚ × List MetricResult × List String
  | [] => ([], [], [])
  | (metric_name, result) :: rest =>
    let acc := processMetrics cfg rest
    if metric_name = METRIC_OVERALL then acc
    else
      let weight := get_metric_weight cfg metric_name
      if 0 < weight then
        (result.score * weight :: acc.1,
         { name := metric_name, value := result.score, weight := weight,
           details := result } :: acc.2.1,
         match result.warning with
         | some w => if w = "" then acc.2.2 else (metric_name ++ ": " ++ w) :: acc.2.2
         | none => acc.2.2)
      else acc

/-- Stable insertion keeping the list sorted descending by key
(`sorted(..., reverse=True)` places an earlier element before
later elements of equal key). -/
def insertByKeyDesc (key : MetricResult → ℚ) (x : MetricResult) :
    List MetricResult → List MetricResult
  | [] => [x]
  | y :: ys => if key y ≤ key x then x :: y :: ys else y :: insertByKeyDesc key x ys

/-- Stable descending sort by key, Python `sorted(l, key, reverse=True)`. -/
def sortByKeyDesc (key : MetricResult → ℚ) : List MetricResult → List MetricResult
  | [] => []
  | x :: xs => insertByKeyDesc key x (sortByKeyDesc key xs)

/-- `ScoreFusion._generate_explanation`. -/
def generate_explanation (metrics : List MetricResult) (overall_score : ℚ) : String :=
  let quality :=
    if 90 ≤ overall_score then "Excellent"
    else if 75 ≤ overall_score then "Good"
    else if 60 ≤ overall_score then "Fair"
    else "Poor"
  let sorted_metrics := sortByKeyDesc (fun m => m.value * m.weight) metrics
  let top_names := (sorted_metrics.take 3).map
    (fun m => pyTitle (m.name.data.map (fun c => if c = '_' then ' ' else c)))
  quality ++ " translation quality (score: " ++ formatFixed 1 overall_score ++
    "/100). Top factors: " ++ joinWith ", " top_names ++ "."

/-- `ScoreFusion.fuse_scores`. -/
def fuse_scores (cfg : FusionConfig) (metric_results : List (String × MetricData)) :
    ScoreBreakdown :=
  let acc := processMetrics cfg metric_results
  let weighted_scores := acc.1
  let metric_list := acc.2.1
  let warnings := acc.2.2
  let overall_score : ℚ :=
    if weighted_scores.isEmpty then 0
    else
      let total_weight := (metric_list.map (fun m => m.weight)).sum
      if 0 < total_weight then weighted_scores.sum / total_weight else 0
  { overall_score := overall_score,
    metrics := metric_list,
    warnings := warnings,
    explanation := generate_explanation metric_list overall_score }

/-- The entries of the input mapping whose resolved weight is positive
(`overall_score` resolves to weight 0, hence is never kept). -/
def keptMetrics (cfg : FusionConfig) (l : List (String × MetricData)) :
    List (String × MetricData) :=
  l.filter (fun p => decide (0 < get_metric_weight cfg p.1))

/-! ## Language detection metric
(`app/evaluation/heuristics/language_detection.py`) -/

/-- Outcome of the external `langdetect.detect_langs` call: a ranked
list of (language, probability) pairs, or a `LangDetectException`
carrying a message. -/
inductive DetectOutcome where
  | ok : List (String × ℚ) → DetectOutcome
  | err : String → DetectOutcome
deriving DecidableEq

/-- Result dict of `LanguageDetectionMetric.evaluate`; absent dict keys
are `none`. -/
structure LangDetectionResult where
  score : ℚ
  detected_lang : Option String
  confidence : ℚ
  matches_target : Option Bool
  warning : Option String
  all_probabilities : Option (List (String × ℚ))
deriving DecidableEq

/-- `LanguageDetectionMetric.evaluate`. -/
def languageDetectionEvaluate (confidence_threshold : ℚ) (detection : DetectOutcome)
    (source_text target_text target_lang : String) : LangDetectionResult :=
  if isBlank target_text then
    { score := 0, detected_lang := none, confidence := 0, matches_target := some false,
      warning := some "Empty translation", all_probabilities := none }
  else
    match detection with
    | DetectOutcome.err e =>
      { score := 50, detected_lang := none, confidence := 0, matches_target := none,
        warning := some ("Language detection error: " ++ e), all_probabilities := none }
    | DetectOutcome.ok [] =>
      { score := 0, detected_lang := none, confidence := 0, matches_target := some false,
        warning := some "Could not detect language", all_probabilities := none }
    | DetectOutcome.ok ((detected_lang, confidence) :: rest) =>
      let matches_target := detected_lang = target_lang
      let score : ℚ :=
        if matches_target then
          if confidence_threshold ≤ confidence then 100 else confidence * 100
        else 0
      let warning : Option String :=
        if ¬ matches_target then
          some ("Language mismatch: expected " ++ quoteMark ++ target_lang ++ quoteMark ++
            ", detected " ++ quoteMark ++ detected_lang ++ quoteMark)
        else if confidence < confidence_threshold then some WARN_LOW_CONFIDENCE
        else none
      { score := score, detected_lang := some detected_lang, confidence := confidence,
        matches_target := some (decide matches_target), warning := warning,
        all_probabilities := some ((detected_lang, confidence) :: rest) }

/-! ## Length ratio metric (`app/evaluation/heuristics/length_ratio.py`) -/

/-- Result dict of `LengthRatioMetric.evaluate` (`ratioValue` models the
dict entry named ratio). -/
structure LengthRatioResult where
  score : ℚ
  ratioValue : ℚ
  source_length : Nat
  target_length : Nat
  warning : Option String
deriving DecidableEq

/-- `LengthRatioMetric.evaluate`; `rmin`/`rmax` model the metric's
`min_ratio`/`max_ratio` parameters. -/
def lengthRatioEvaluate (rmin rmax : ℚ) (source_text target_text : String) :
    LengthRatioResult :=
  let source_len := source_text.length
  let target_len := target_text.length
  if source_len = 0 then
    { score := 0, ratioValue := 0, source_length := 0, target_length := target_len,
      warning := some "Empty source text" }
  else if target_len = 0 then
    { score := 0, ratioValue := 0, source_length := source_len, target_length := 0,
      warning := some "Empty translation" }
  else
    let r : ℚ := (target_len : ℚ) / (source_len : ℚ)
    let score : ℚ :=
      if rmin ≤ r ∧ r ≤ rmax then
        max 50 (if r < 1 then (r - rmin) / (1 - rmin) * 100
                else (rmax - r) / (rmax - 1) * 100)
      else
        max 0 (min 50 (if r < rmin then r / rmin * 50 else rmax / r * 50))
    let warning : Option String :=
      if r < rmin then
        some (WARN_LENGTH_ANOMALY ++ ": translation too short (ratio: " ++
          formatFixed 2 r ++ ")")
      else if rmax < r then
        some (WARN_LENGTH_ANOMALY ++ ": translation too long (ratio: " ++
          formatFixed 2 r ++ ")")
      else none
    { score := score, ratioValue := r, source_length := source_len,
      target_length := target_len, warning := warning }

/-! ## Repetition metric (`app/evaluation/heuristics/repetition.py`) -/

/-- `RepetitionMetric._get_ngrams`: lower-case, whitespace-tokenize,
all contiguous n-grams; empty when fewer than `n` tokens exist. -/
def get_ngrams (text : String) (n : Nat) : List (List Token) :=
  let words := pySplit (String.mk (text.data.map Char.toLower))
  if words.length < n then []
  else (List.range (words.length - n + 1)).map (fun i => (words.drop i).take n)

/-- The multiset of n-gram frequencies (`Counter(ngrams).values()`). -/
def ngramCounts (ngrams : List (List Token)) : List Nat :=
  ngrams.dedup.map (fun g => ngrams.count g)

/-- `max(Counter(ngrams).values())` (0 on an empty list). -/
def maxNgramCount (ngrams : List (List Token)) : Nat :=
  (ngramCounts ngrams).foldl max 0

/-- `RepetitionMetric._calculate_repetition_score`. -/
def calculate_repetition_score (ngrams : List (List Token)) : ℚ :=
  if ngrams.isEmpty then 0
  else
    let total_ngrams := ngrams.length
    let unique_ngrams := ngrams.dedup.length
    if total_ngrams = 0 then 0
    else
      let repetition : ℚ := 1 - ((unique_ngrams : ℚ) / (total_ngrams : ℚ))
      let max_count := maxNgramCount ngrams
      if 1 < max_count then
        max repetition (min ((max_count : ℚ) / (total_ngrams : ℚ)) 1)
      else repetition

/-- Result dict of `RepetitionMetric.evaluate` (the empty-translation
branch, which omits `ngram_scores`, is modelled with an empty list). -/
structure RepetitionResult where
  score : ℚ
  repetition_score : ℚ
  ngram_scores : List (String × ℚ)
  warning : Option String
deriving DecidableEq

/-- The per-size loop of `RepetitionMetric.evaluate`: for each n-gram
size from 2 to the maximum with a nonempty n-gram list, the size and
its repetition value. -/
def repetitionEntries (max_ngram_size : Nat) (target_text : String) : List (Nat × ℚ) :=
  ((List.range (max_ngram_size + 1)).drop 2).filterMap (fun n =>
    let ngrams := get_ngrams target_text n
    if ngrams.isEmpty then none else some (n, calculate_repetition_score ngrams))

/-- `RepetitionMetric.evaluate`. -/
def repetitionEvaluate (max_ngram_size : Nat) (threshold : ℚ)
    (source_text target_text : String) : RepetitionResult :=
  if isBlank target_text then
    { score := 0, repetition_score := 0, ngram_scores := [],
      warning := some "Empty translation" }
  else
    let entries := repetitionEntries max_ngram_size target_text
    let max_repetition := (entries.map Prod.snd).foldl max 0
    let score := (1 - max_repetition) * 100
    let warning : Option String :=
      if threshold < max_repetition then
        some (WARN_HIGH_REPETITION ++ " (score: " ++ formatFixed 2 max_repetition ++ ")")
      else none
    { score := score, repetition_score := max_repetition,
      ngram_scores := entries.map (fun p => (toString p.1 ++ "-gram", p.2)),
      warning := warning }

/-! ## Preservation metric (`app/evaluation/heuristics/preservation.py`) -/

/-- Python regex word character `\w` (ASCII fragment). -/
def isWordChar (c : Char) : Bool := c.isAlphanum || c = Char.ofNat 95

/-- Maximal digit prefix of a character list, with the remainder. -/
def digitsRun : List Char → List Char × List Char
  | [] => ([], [])
  | c :: cs =>
    if c.isDigit then
      let p := digitsRun cs
      (c :: p.1, p.2)
    else ([], c :: cs)

/-- The percent-sign character. -/
def pctChar : Char := '%'

/-- Whether a character list starts with a word character (out of
bounds counts as non-word for `\b`). -/
def headIsWord : List Char → Bool
  | [] => false
  | c :: _ => isWordChar c

/-- Matching the tail `%?\b` of the number regex after the digits `d1`,
with `r1` the remaining input: the greedy `%` branch needs a word
character after the percent sign; otherwise the trailing `\b` needs a
non-word (or absent) next character. -/
def matchNoGroup (d1 r1 : List Char) : Option (List Char × List Char) :=
  match r1 with
  | [] => some (d1, [])
  | c :: r2 =>
    if c = pctChar then
      if headIsWord r2 then some (d1 ++ [pctChar], r2) else some (d1, r1)
    else if isWordChar c then none
    else some (d1, r1)

/-- One attempted match of `\b\d+(?:[.,]\d+)?%?\b` at the current
position, Python backtracking included: the decimal group is taken
greedily, dropped again when the trailing boundary fails behind it.
`prevWord` tells whether the character before the position is a word
character.  Returns the matched token and the remaining input. -/
def matchNumber (prevWord : Bool) (s : List Char) : Option (List Char × List Char) :=
  if prevWord then none
  else
    let p1 := digitsRun s
    let d1 := p1.1
    if d1.isEmpty then none
    else
      match p1.2 with
      | [] => some (d1, [])
      | c :: r2 =>
        if c = '.' ∨ c = ',' then
          let p2 := digitsRun r2
          let d2 := p2.1
          if d2.isEmpty then matchNoGroup d1 (c :: r2)
          else
            match p2.2 with
            | [] => some (d1 ++ c :: d2, [])
            | c2 :: r4 =>
              if c2 = pctChar then
                if headIsWord r4 then some (d1 ++ c :: d2 ++ [pctChar], r4)
                else some (d1 ++ c :: d2, c2 :: r4)
              else if isWordChar c2 then matchNoGroup d1 (c :: r2)
              else some (d1 ++ c :: d2, c2 :: r4)
        else matchNoGroup d1 (c :: r2)

/-- Wordness of the last character of a matched token (for resuming the
scan behind a match). -/
def lastIsWord (tok : List Char) : Bool :=
  match tok.getLast? with
  | some c => isWordChar c
  | none => false

/-- The `re.findall` scan: try a match at every position left to right,
resume behind a found match.  Fuel bounds the recursion; every step
consumes at least one character, so the input length is enough fuel. -/
def scanNumbersAux : Nat → Bool → List Char → List Token
  | 0, _, _ => []
  | _ + 1, _, [] => []
  | fuel + 1, prevWord, c :: cs =>
    match matchNumber prevWord (c :: cs) with
    | some (tok, rest) => tok :: scanNumbersAux fuel (lastIsWord tok) rest
    | none => scanNumbersAux fuel (isWordChar c) cs

/-- `PreservationMetric._extract_numbers`:
`re.findall(r"\b\d+(?:[.,]\d+)?%?\b", text)`. -/
def extract_numbers (text : String) : List Token :=
  scanNumbersAux text.data.length false text.data

/-- Python `string.punctuation` (the 32 ASCII punctuation characters). -/
def punctuationChars : List Char :=
  ((List.range 128).filter (fun n =>
    decide ((33 ≤ n ∧ n ≤ 47) ∨ (58 ≤ n ∧ n ≤ 64) ∨ (91 ≤ n ∧ n ≤ 96) ∨
      (123 ≤ n ∧ n ≤ 126)))).map Char.ofNat

/-- Membership in `string.punctuation`. -/
def isPunct (c : Char) : Bool := punctuationChars.contains c

/-- `PreservationMetric._extract_punctuation_pattern`. -/
def extract_punctuation (text : String) : List Char := text.data.filter isPunct

/-- Whether a token starts with an upper-case letter. -/
def headIsUpper : Token → Bool
  | [] => false
  | c :: _ => c.isUpper

/-- `PreservationMetric._extract_capitalized_words`. -/
def extract_capitalized_words (text : String) : List Token :=
  (pySplit text).filter headIsUpper

/-- `len(set(a) & set(b))`: the number of distinct elements of `a` that
also occur in `b`. -/
def setInterCard (a b : List Token) : Nat :=
  (a.dedup.filter (fun x => decide (x ∈ b.dedup))).length

/-- `PreservationMetric._calculate_preservation_score`. -/
def calculate_preservation_score (source_items target_items : List Token) : ℚ :=
  if source_items.isEmpty then 100
  else
    let preserved := setInterCard source_items target_items
    let total := source_items.dedup.length
    if 0 < total then ((preserved : ℚ) / (total : ℚ)) * 100 else 100

/-- The numbers component score of `PreservationMetric.evaluate`. -/
def numbersScoreOf (source_text target_text : String) : ℚ :=
  calculate_preservation_score (extract_numbers source_text) (extract_numbers target_text)

/-- The `missing` count of the numbers warning:
`len(source_numbers) - len(set(source_numbers) & set(target_numbers))`. -/
def numbersMissing (source_text target_text : String) : Nat :=
  (extract_numbers source_text).length -
    setInterCard (extract_numbers source_text) (extract_numbers target_text)

/-- The warnings contributed by the numbers check. -/
def numbersWarnings (source_text target_text : String) : List String :=
  if numbersScoreOf source_text target_text < 100 then
    [WARN_CONTENT_LOSS ++ ": " ++ toString (numbersMissing source_text target_text) ++
      " number(s) not preserved"]
  else []

/-- The punctuation component score of `PreservationMetric.evaluate`. -/
def punctScoreOf (source_text target_text : String) : ℚ :=
  let source_punct := extract_punctuation source_text
  let target_punct := extract_punctuation target_text
  if source_punct.isEmpty then 100
  else ((source_punct.filter (fun c => decide (c ∈ target_punct))).length : ℚ) /
    (source_punct.length : ℚ) * 100

/-- The warnings contributed by the punctuation check. -/
def punctWarnings (source_text target_text : String) : List String :=
  if punctScoreOf source_text target_text < 80 then
    [WARN_FORMAT_DRIFT ++ ": punctuation pattern differs"]
  else []

/-- The entities component score of `PreservationMetric.evaluate`. -/
def entityScoreOf (source_text target_text : String) : ℚ :=
  calculate_preservation_score (extract_capitalized_words source_text)
    (extract_capitalized_words target_text)

/-- The warnings contributed by the entities check. -/
def entityWarnings (source_text target_text : String) : List String :=
  if entityScoreOf source_text target_text < 80 then
    [WARN_CONTENT_LOSS ++ ": some capitalized words not preserved"]
  else []

/-- The enabled component scores, in the dict insertion order of
`PreservationMetric.evaluate`. -/
def preservationComponents (check_numbers check_punctuation check_entities : Bool)
    (source_text target_text : String) : List ℚ :=
  (if check_numbers then [numbersScoreOf source_text target_text] else []) ++
  (if check_punctuation then [punctScoreOf source_text target_text] else []) ++
  (if check_entities then [entityScoreOf source_text target_text] else [])

/-- The collected warning list of `PreservationMetric.evaluate`. -/
def preservationWarningList (check_numbers check_punctuation check_entities : Bool)
    (source_text target_text : String) : List String :=
  (if check_numbers then numbersWarnings source_text target_text else []) ++
  (if check_punctuation then punctWarnings source_text target_text else []) ++
  (if check_entities then entityWarnings source_text target_text else [])

/-- Result dict of `PreservationMetric.evaluate`; the three optional
fields model the `component_scores` dict entries. -/
structure PreservationResult where
  score : ℚ
  numbersScore : Option ℚ
  punctuationScore : Option ℚ
  entitiesScore : Option ℚ
  warning : Option String
deriving DecidableEq

/-- `PreservationMetric.evaluate`. -/
def preservationEvaluate (check_numbers check_punctuation check_entities : Bool)
    (source_text target_text : String) : PreservationResult :=
  if isBlank target_text then
    { score := 0, numbersScore := none, punctuationScore := none,
      entitiesScore := none, warning := some "Empty translation" }
  else
    let comps := preservationComponents check_numbers check_punctuation check_entities
      source_text target_text
    let overall : ℚ := if comps.isEmpty then 100 else comps.sum / (comps.length : ℚ)
    let warns := preservationWarningList check_numbers check_punctuation check_entities
      source_text target_text
    { score := overall,
      numbersScore :=
        if check_numbers then some (numbersScoreOf source_text target_text) else none,
      punctuationScore :=
        if check_punctuation then some (punctScoreOf source_text target_text) else none,
      entitiesScore :=
        if check_entities then some (entityScoreOf source_text target_text) else none,
      warning := if warns.isEmpty then none else some (joinWith "; " warns) }

/-! ## Semantic similarity metric
(`app/evaluation/semantic/embedding_similarity.py`) -/

/-- Outcome of the external embedding backend: the cosine similarity
`_cosine_similarity` computes from the two encoded vectors (a real
cosine lies in `[-1, 1]`; zero-norm vectors give 0), or a failure
caught by the metric's exception handler. -/
inductive SemOutcome where
  | ok : ℚ → SemOutcome
  | err : String → SemOutcome
deriving DecidableEq

/-- Result dict of `SemanticSimilarityMetric.evaluate`. -/
structure SemanticResult where
  score : ℚ
  similarity : ℚ
  warning : Option String
deriving DecidableEq

/-- `SemanticSimilarityMetric.evaluate`. -/
def semanticEvaluate (outcome : SemOutcome) (source_text target_text : String) :
    SemanticResult :=
  if source_text = "" ∨ target_text = "" then
    { score := 0, similarity := 0, warning := some "Empty text" }
  else
    match outcome with
    | SemOutcome.ok similarity =>
      { score := max 0 similarity * 100, similarity := similarity, warning := none }
    | SemOutcome.err e =>
      { score := 0, similarity := 0,
        warning := some ("Similarity calculation error: " ++ e) }

/-! ## Evaluation orchestrator (`app/evaluation/evaluator.py`) -/

/-- The configuration the orchestrator reads: enabled flags, resolved
fusion weights and the metric construction parameters. -/
structure EngineSettings where
  fusion : FusionConfig
  enable_language_detection : Bool
  enable_length_ratio : Bool
  enable_repetition : Bool
  enable_preservation : Bool
  enable_semantic : Bool
  rmin : ℚ
  rmax : ℚ
  check_numbers : Bool
  check_punctuation : Bool
  check_entities : Bool
deriving DecidableEq

/-- The outcomes of the two external resources consumed during one
evaluation. -/
structure ExternalOutcomes where
  detection : DetectOutcome
  semantic : SemOutcome
deriving DecidableEq

/-- The metric-name-to-outcome mapping `Evaluator.evaluate_translation`
collects before fusing, in its evaluation order. -/
def collect_metric_results (s : EngineSettings) (env : ExternalOutcomes)
    (source_text target_text target_lang : String) : List (String × MetricData) :=
  (if s.enable_language_detection then
    [("language_detection",
      let r := languageDetectionEvaluate DEFAULT_CONFIDENCE_THRESHOLD env.detection
        source_text target_text target_lang
      { score := r.score, warning := r.warning })]
   else []) ++
  (if s.enable_length_ratio then
    [("length_ratio",
      let r := lengthRatioEvaluate s.rmin s.rmax source_text target_text
      { score := r.score, warning := r.warning })]
   else []) ++
  (if s.enable_repetition then
    [("repetition",
      let r := repetitionEvaluate MAX_NGRAM_SIZE REPETITION_THRESHOLD
        source_text target_text
      { score := r.score, warning := r.warning })]
   else []) ++
  (if s.enable_preservation then
    [("preservation",
      let r := preservationEvaluate s.check_numbers s.check_punctuation
        s.check_entities source_text target_text
      { score := r.score, warning := r.warning })]
   else []) ++
  (if s.enable_semantic then
    [("semantic_similarity",
      let r := semanticEvaluate env.semantic source_text target_text
      { score := r.score, warning := r.warning })]
   else [])

/-- `Evaluator.evaluate_translation`: run the enabled metrics, fuse,
wrap in an `EvaluationResult`. -/
def evaluate_translation (s : EngineSettings) (env : ExternalOutcomes)
    (translation_id : ℤ) (provider_name model_id : String)
    (source_text target_text target_lang : String) : EvaluationResult :=
  { translation_id := translation_id, provider_name := provider_name,
    model_id := model_id,
    score_breakdown :=
      fuse_scores s.fusion (collect_metric_results s env source_text target_text
        target_lang) }

/-! ## Definitions taken from the spec's wording (for comparison with
the code) -/

/-- The length-ratio score curve as the spec sentences of claim C4 word
it: inside the band the linear decay clamped below at 50, outside the
band the scaled-down value clamped to the interval from 0 to 50. -/
def lengthRatioSpecScore (rmin rmax r : ℚ) : ℚ :=
  if rmin ≤ r ∧ r ≤ rmax then
    if r < 1 then max ((r - rmin) / (1 - rmin) * 100) 50
    else max ((rmax - r) / (rmax - 1) * 100) 50
  else
    if r < rmin then min 50 (max 0 (r / rmin * 50))
    else min 50 (max 0 (rmax / r * 50))

/-- The per-size repetition value as claim C3 words it: the uniqueness
ratio and the frequency factor are always combined with `max`, even
when every n-gram occurs exactly once. -/
def claimedPerSizeRepetition (ngrams : List (List Token)) : ℚ :=
  max (1 - ((ngrams.dedup.length : ℚ) / (ngrams.length : ℚ)))
    (min ((maxNgramCount ngrams : ℚ) / (ngrams.length : ℚ)) 1)

/-- The numbers-component formula as claim C8 words it. -/
def claimedNumbersScore (source_text target_text : String) : ℚ :=
  if extract_numbers source_text = [] then 100
  else ((setInterCard (extract_numbers source_text) (extract_numbers target_text) : ℚ) /
    ((extract_numbers source_text).dedup.length : ℚ)) * 100

/-- A score within the documented range. -/
def scoreInRange (q : ℚ) : Prop := 0 ≤ q ∧ q ≤ 100

/-! ## Helper lemmas -/

theorem le_foldl_max {α : Type} [LinearOrder α] (l : List α) (a : α) :
    a ≤ l.foldl max a := by
  induction l generalizing a with
  | nil => exact le_refl a
  | cons x xs ih => exact le_trans (le_max_left a x) (ih (max a x))

theorem mem_le_foldl_max {α : Type} [LinearOrder α] {x : α} {l : List α}
    (h : x ∈ l) (a : α) : x ≤ l.foldl max a := by
  induction l generalizing a with
  | nil => cases h
  | cons y ys ih =>
    cases h with
    | head => exact le_trans (le_max_right a x) (le_foldl_max ys (max a x))
    | tail _ hm => exact ih hm (max a y)

theorem foldl_max_le {α : Type} [LinearOrder α] {l : List α} {a b : α}
    (ha : a ≤ b) (h : ∀ x ∈ l, x ≤ b) : l.foldl max a ≤ b := by
  induction l generalizing a with
  | nil => exact ha
  | cons x xs ih =>
    exact ih (max_le ha (h x (List.mem_cons_self x xs)))
      (fun y hy => h y (List.mem_cons_of_mem x hy))

theorem list_count_beq_congr {α : Type} (inst1 inst2 : BEq α)
    [@LawfulBEq α inst1] [@LawfulBEq α inst2] (a : α) (l : List α) :
    @List.count α inst1 a l = @List.count α inst2 a l := by
  induction l with
  | nil => rfl
  | cons x xs ih =>
    have hb : (@BEq.beq α inst1 x a) = (@BEq.beq α inst2 x a) := by
      by_cases h : x = a
      · subst h
        rw [@beq_self_eq_true α inst1 _ x, @beq_self_eq_true α inst2 _ x]
      · rw [(@beq_eq_false_iff_ne α inst1 _ x a).2 h,
          (@beq_eq_false_iff_ne α inst2 _ x a).2 h]
    simp only [List.count_cons, ih, hb]

theorem processMetrics_eq (cfg : FusionConfig) (l : List (String × MetricData)) :
    processMetrics cfg l =
      ((keptMetrics cfg l).map (fun p => p.2.score * get_metric_weight cfg p.1),
       (keptMetrics cfg l).map (fun p =>
         { name := p.1, value := p.2.score, weight := get_metric_weight cfg p.1,
           details := p.2 }),
       ((keptMetrics cfg l).filter (fun p => warnTruthy p.2.warning)).map
         (fun p => p.1 ++ ": " ++ p.2.warning.getD "")) := by
  induction l with
  | nil => simp [processMetrics, keptMetrics]
  | cons hd rest ih =>
    obtain ⟨nm, d⟩ := hd
    by_cases hov : nm = METRIC_OVERALL
    · subst hov
      have hw0 : get_metric_weight cfg METRIC_OVERALL = 0 := rfl
      have hk : keptMetrics cfg ((METRIC_OVERALL, d) :: rest) = keptMetrics cfg rest := by
        simp [keptMetrics, List.filter_cons, hw0]
      have hp : processMetrics cfg ((METRIC_OVERALL, d) :: rest) =
          processMetrics cfg rest := by
        simp [processMetrics]
      rw [hp, hk, ih]
    · by_cases hpos : 0 < get_metric_weight cfg nm
      · have hk : keptMetrics cfg ((nm, d) :: rest) = (nm, d) :: keptMetrics cfg rest := by
          simp [keptMetrics, List.filter_cons, hpos]
        rw [hk]
        rcases hw : d.warning with _ | w
        · simp [processMetrics, hov, hpos, hw, ih, warnTruthy, List.filter_cons]
        · by_cases hww : w = "" <;>
            simp [processMetrics, hov, hpos, hw, hww, ih, warnTruthy, List.filter_cons]
      · have hk : keptMetrics cfg ((nm, d) :: rest) = keptMetrics cfg rest := by
          simp [keptMetrics, List.filter_cons, hpos]
        simp [processMetrics, hov, hpos, ih, hk]

theorem fuse_overall_eq (cfg : FusionConfig) (l : List (String × MetricData)) :
    (fuse_scores cfg l).overall_score =
      if 0 < ((keptMetrics cfg l).map (fun p => get_metric_weight cfg p.1)).sum then
        ((keptMetrics cfg l).map (fun p => p.2.score * get_metric_weight cfg p.1)).sum /
          ((keptMetrics cfg l).map (fun p => get_metric_weight cfg p.1)).sum
      else 0 := by
  simp only [fuse_scores, processMetrics_eq, List.map_map]
  cases hk : keptMetrics cfg l with
  | nil => simp
  | cons p ks =>
    simp only [List.isEmpty_cons, List.map_cons]
    rfl

theorem fuse_metrics_eq (cfg : FusionConfig) (l : List (String × MetricData)) :
    (fuse_scores cfg l).metrics = (keptMetrics cfg l).map (fun p =>
      { name := p.1, value := p.2.score, weight := get_metric_weight cfg p.1,
        details := p.2 }) := by
  simp [fuse_scores, processMetrics_eq]

theorem fuse_warnings_eq (cfg : FusionConfig) (l : List (String × MetricData)) :
    (fuse_scores cfg l).warnings =
      ((keptMetrics cfg l).filter (fun p => warnTruthy p.2.warning)).map
        (fun p => p.1 ++ ": " ++ p.2.warning.getD "") := by
  simp [fuse_scores, processMetrics_eq]

/-! ## Claim theorems: fusion -/

/-- Claim C1: for every input mapping of metric outcomes the fused
`overall_score` is the weighted mean over exactly the metrics with
positive resolved weight, 0 when no metric has positive weight; and the
two-metric example with weights 2 and 1 and scores 80 and 50 fuses to
70. -/
theorem fusion_weighted_mean_c1 :
    (∀ (cfg : FusionConfig) (l : List (String × MetricData)),
      (fuse_scores cfg l).overall_score =
        if 0 < ((keptMetrics cfg l).map (fun p => get_metric_weight cfg p.1)).sum then
          ((keptMetrics cfg l).map (fun p => p.2.score * get_metric_weight cfg p.1)).sum /
            ((keptMetrics cfg l).map (fun p => get_metric_weight cfg p.1)).sum
        else 0) ∧
    (fuse_scores
      { language_detection_weight := 0, length_ratio_weight := 2,
        repetition_weight := 1, preservation_weight := 0, semantic_weight := 0 }
      [("length_ratio", { score := 80, warning := none }),
       ("repetition", { score := 50, warning := none })]).overall_score = 70 := by
  exact ⟨fuse_overall_eq, by decide⟩

/-- Claim C2: a metric whose resolved weight is 0 contributes neither a
`MetricResult` nor a warning; every emitted warning stems from a
positive-weight metric and carries that metric's name as prefix. -/
theorem fusion_drops_zero_weight_c2 (cfg : FusionConfig)
    (l : List (String × MetricData)) (nm : String)
    (h : get_metric_weight cfg nm = 0) :
    (∀ r ∈ (fuse_scores cfg l).metrics, r.name ≠ nm) ∧
    (∀ s ∈ (fuse_scores cfg l).warnings, ∃ p ∈ l,
      0 < get_metric_weight cfg p.1 ∧ p.1 ≠ nm ∧
      ∃ msg, p.2.warning = some msg ∧ msg ≠ "" ∧ s = p.1 ++ ": " ++ msg) := by
  constructor
  · intro r hr
    rw [fuse_metrics_eq] at hr
    obtain ⟨p, hp, rfl⟩ := List.mem_map.1 hr
    rw [keptMetrics, List.mem_filter, decide_eq_true_eq] at hp
    intro hcon
    simp only at hcon
    rw [hcon, h] at hp
    exact lt_irrefl 0 hp.2
  · intro s hs
    rw [fuse_warnings_eq] at hs
    obtain ⟨p, hp, rfl⟩ := List.mem_map.1 hs
    rw [List.mem_filter] at hp
    obtain ⟨hpk, htr⟩ := hp
    rw [keptMetrics, List.mem_filter, decide_eq_true_eq] at hpk
    obtain ⟨hpl, hpos⟩ := hpk
    refine ⟨p, hpl, hpos, ?_, ?_⟩
    · intro hcon
      rw [hcon, h] at hpos
      exact lt_irrefl 0 hpos
    · rcases hwn : p.2.warning with _ | msg
      · simp only [warnTruthy, hwn, Option.getD_none, bne_self_eq_false] at htr
        exact absurd htr (by decide)
      · refine ⟨msg, rfl, ?_, rfl⟩
        simp only [warnTruthy, hwn, Option.getD_some, bne_iff_ne] at htr
        exact htr

/-- Witness for C2 at a concrete configuration and input: the metric
named repetition resolves to weight 0 and is dropped together with its
warning. -/
theorem fusion_drops_zero_weight_c2_witness :
    get_metric_weight
      { language_detection_weight := 0, length_ratio_weight := 1,
        repetition_weight := 0, preservation_weight := 0, semantic_weight := 0 }
      "repetition" = 0 ∧
    ((∀ r ∈ (fuse_scores
        { language_detection_weight := 0, length_ratio_weight := 1,
          repetition_weight := 0, preservation_weight := 0, semantic_weight := 0 }
        [("repetition", { score := 10, warning := some "looping" }),
         ("length_ratio", { score := 80, warning := some "odd" })]).metrics,
      r.name ≠ "repetition") ∧
     (∀ s ∈ (fuse_scores
        { language_detection_weight := 0, length_ratio_weight := 1,
          repetition_weight := 0, preservation_weight := 0, semantic_weight := 0 }
        [("repetition", { score := 10, warning := some "looping" }),
         ("length_ratio", { score := 80, warning := some "odd" })]).warnings,
      ∃ p ∈ [("repetition", ({ score := 10, warning := some "looping" } : MetricData)),
         ("length_ratio", { score := 80, warning := some "odd" })],
        0 < get_metric_weight
          { language_detection_weight := 0, length_ratio_weight := 1,
            repetition_weight := 0, preservation_weight := 0, semantic_weight := 0 }
          p.1 ∧ p.1 ≠ "repetition" ∧
        ∃ msg, p.2.warning = some msg ∧ msg ≠ "" ∧ s = p.1 ++ ": " ++ msg)) :=
  ⟨by decide, fusion_drops_zero_weight_c2 _ _ "repetition" (by decide)⟩

/-- Claim C10: an input entry keyed `overall_score` is ignored by the
fusion: the resulting breakdown is identical with or without it, and no
`MetricResult` is ever named `overall_score`. -/
theorem fusion_ignores_overall_entry_c10 (cfg : FusionConfig)
    (l1 l2 : List (String × MetricData)) (d : MetricData) :
    fuse_scores cfg (l1 ++ (METRIC_OVERALL, d) :: l2) = fuse_scores cfg (l1 ++ l2) ∧
    ∀ r ∈ (fuse_scores cfg (l1 ++ (METRIC_OVERALL, d) :: l2)).metrics,
      r.name ≠ METRIC_OVERALL := by
  have hskip : processMetrics cfg (l1 ++ (METRIC_OVERALL, d) :: l2) =
      processMetrics cfg (l1 ++ l2) := by
    induction l1 with
    | nil => simp [processMetrics]
    | cons p r ih =>
      obtain ⟨nm, dd⟩ := p
      simp only [List.cons_append, processMetrics, List.append_eq, ih]
  constructor
  · unfold fuse_scores
    rw [hskip]
  · intro r hr
    rw [fuse_metrics_eq] at hr
    obtain ⟨p, hp, rfl⟩ := List.mem_map.1 hr
    rw [keptMetrics, List.mem_filter, decide_eq_true_eq] at hp
    intro hcon
    simp only at hcon
    rw [hcon] at hp
    have : get_metric_weight cfg METRIC_OVERALL = 0 := rfl
    rw [this] at hp
    exact lt_irrefl 0 hp.2

/-! ## Claim theorems: repetition and length ratio -/

/-- Claim C3 fails on the code: for target "a b c" at size 2 every
bigram occurs exactly once, the code's per-size repetition value is 0,
while the claimed formula (frequency factor always taken into the max)
gives 1/2. -/
theorem repetition_per_size_c3_counterexample :
    calculate_repetition_score (get_ngrams "a b c" 2) = 0 ∧
    claimedPerSizeRepetition (get_ngrams "a b c" 2) = 1/2 ∧
    calculate_repetition_score (get_ngrams "a b c" 2) ≠
      claimedPerSizeRepetition (get_ngrams "a b c" 2) :=
  ⟨by decide, by decide, by decide⟩

/-- Claim C3 (amended): the frequency factor enters the max only when
some n-gram occurs more than once; when every n-gram occurs exactly
once the per-size value is the bare uniqueness ratio, which is 0. -/
theorem repetition_per_size_c3_amended (text : String) (n : Nat)
    (h : get_ngrams text n ≠ []) :
    (1 < maxNgramCount (get_ngrams text n) →
      calculate_repetition_score (get_ngrams text n) =
        claimedPerSizeRepetition (get_ngrams text n)) ∧
    (maxNgramCount (get_ngrams text n) = 1 →
      calculate_repetition_score (get_ngrams text n) = 0) := by
  have hne : (get_ngrams text n).isEmpty = false := by
    simpa [List.isEmpty_iff] using h
  have hlen : (get_ngrams text n).length ≠ 0 := by
    intro hh
    exact h (List.length_eq_zero.1 hh)
  constructor
  · intro hmc
    simp [calculate_repetition_score, claimedPerSizeRepetition, hne, hlen, hmc]
  · intro hmc
    have hnodup : (get_ngrams text n).Nodup := by
      rw [List.nodup_iff_count_le_one]
      intro a
      by_cases ha : a ∈ get_ngrams text n
      · have hmem : (get_ngrams text n).count a ∈ ngramCounts (get_ngrams text n) :=
          List.mem_map_of_mem _ (List.mem_dedup.2 ha)
        have hle := mem_le_foldl_max hmem 0
        rw [maxNgramCount] at hmc
        rw [hmc] at hle
        exact le_trans
          (le_of_eq (list_count_beq_congr instBEqOfDecidableEq List.instBEq a
            (get_ngrams text n))) hle
      · rw [list_count_beq_congr instBEqOfDecidableEq List.instBEq a (get_ngrams text n),
          List.count_eq_zero_of_not_mem ha]
        exact Nat.zero_le 1
    have hdedup : (get_ngrams text n).dedup = get_ngrams text n :=
      List.dedup_eq_self.2 hnodup
    have hcast : ((get_ngrams text n).length : ℚ) ≠ 0 := by exact_mod_cast hlen
    simp [calculate_repetition_score, hne, hlen, hdedup, hmc, div_self hcast]

/-- Witness for the amended C3 at a concrete repeated input. -/
theorem repetition_per_size_c3_amended_witness :
    (get_ngrams "go go go" 2 ≠ [] ∧ 1 < maxNgramCount (get_ngrams "go go go" 2)) ∧
    calculate_repetition_score (get_ngrams "go go go" 2) =
      claimedPerSizeRepetition (get_ngrams "go go go" 2) :=
  ⟨⟨by decide, by decide⟩,
    (repetition_per_size_c3_amended "go go go" 2 (by decide)).1 (by decide)⟩

/-- Claim C4: for nonempty source and target the length-ratio score
follows the spec's piecewise curve of `ratio = len(target)/len(source)`:
linear decay clamped below at 50 inside the band, scaled-down value
clamped to the interval from 0 to 50 outside it. -/
theorem length_ratio_curve_c4 (rmin rmax : ℚ) (source_text target_text : String)
    (hs : source_text.length ≠ 0) (ht : target_text.length ≠ 0) :
    (lengthRatioEvaluate rmin rmax source_text target_text).score =
      lengthRatioSpecScore rmin rmax
        ((target_text.length : ℚ) / (source_text.length : ℚ)) := by
  simp only [lengthRatioEvaluate, lengthRatioSpecScore, hs, ht, if_false]
  split_ifs <;> simp [max_comm, max_min_distrib_left]

/-- Witness for C4 at a concrete in-band pair. -/
theorem length_ratio_curve_c4_witness :
    (("ab" : String).length ≠ 0 ∧ ("abc" : String).length ≠ 0) ∧
    (lengthRatioEvaluate (1/2) 2 "ab" "abc").score =
      lengthRatioSpecScore (1/2) 2
        ((("abc" : String).length : ℚ) / (("ab" : String).length : ℚ)) :=
  ⟨⟨by decide, by decide⟩,
    length_ratio_curve_c4 (1/2) 2 "ab" "abc" (by decide) (by decide)⟩

/-- Claim C9: the repetition metric scores the unique sentence above 70
with no warning and the six-fold repeated word below 50 with a warning
(the maximum repetition exceeds the default threshold 0.3). -/
theorem repetition_examples_c9 :
    70 < (repetitionEvaluate MAX_NGRAM_SIZE REPETITION_THRESHOLD ""
      "This is a unique translation.").score ∧
    (repetitionEvaluate MAX_NGRAM_SIZE REPETITION_THRESHOLD ""
      "This is a unique translation.").warning = none ∧
    (repetitionEvaluate MAX_NGRAM_SIZE REPETITION_THRESHOLD ""
      "test test test test test test").score < 50 ∧
    (repetitionEvaluate MAX_NGRAM_SIZE REPETITION_THRESHOLD ""
      "test test test test test test").warning.isSome = true :=
  ⟨by decide, by decide, by decide, by decide⟩

/-! ## Claim theorems: totality, language match, preservation numbers -/

/-- Claim C5: evaluation is total.  A detector failure never escapes
the language metric: it is converted into the neutral score 50 with a
warning naming the failure; the orchestrated evaluation always yields a
ScoreBreakdown; and the semantic metric likewise converts a backend
failure into a score-0 warning result instead of raising. -/
theorem evaluation_total_c5 (thr : ℚ) (src tgt lang e : String)
    (hb : isBlank tgt = false) :
    languageDetectionEvaluate thr (DetectOutcome.err e) src tgt lang =
      { score := 50, detected_lang := none, confidence := 0, matches_target := none,
        warning := some ("Language detection error: " ++ e),
        all_probabilities := none } ∧
    (∀ (s : EngineSettings) (env : ExternalOutcomes) (tid : ℤ)
        (pn mid st tt tl : String),
      ∃ b : ScoreBreakdown,
        (evaluate_translation s env tid pn mid st tt tl).score_breakdown = b) ∧
    (∀ (st tt e2 : String), st ≠ "" → tt ≠ "" →
      semanticEvaluate (SemOutcome.err e2) st tt =
        { score := 0, similarity := 0,
          warning := some ("Similarity calculation error: " ++ e2) }) := by
  refine ⟨?_, fun s env tid pn mid st tt tl => ⟨_, rfl⟩, ?_⟩
  · simp [languageDetectionEvaluate, hb]
  · intro st tt e2 hst htt
    simp [semanticEvaluate, hst, htt]

/-- Witness for C5: a concrete detector failure on a non-blank target. -/
theorem evaluation_total_c5_witness :
    languageDetectionEvaluate (4/5) (DetectOutcome.err "no features in text")
      "x" "Hola" "es" =
      { score := 50, detected_lang := none, confidence := 0, matches_target := none,
        warning := some ("Language detection error: no features in text"),
        all_probabilities := none } :=
  (evaluation_total_c5 (4/5) "x" "Hola" "es" "no features in text" (by decide)).1

/-- Claim C6: on a non-blank target with a nonempty ranked detector
list, a matching top language scores 100 at or above the threshold and
confidence times 100 with the low-confidence warning below it, and a
differing top language scores 0 with an expected-versus-detected
warning. -/
theorem language_match_cases_c6 (thr : ℚ) (src tgt lang l : String) (c : ℚ)
    (rest : List (String × ℚ)) (hb : isBlank tgt = false) :
    (l = lang → thr ≤ c →
      (languageDetectionEvaluate thr (DetectOutcome.ok ((l, c) :: rest))
        src tgt lang).score = 100 ∧
      (languageDetectionEvaluate thr (DetectOutcome.ok ((l, c) :: rest))
        src tgt lang).warning = none) ∧
    (l = lang → c < thr →
      (languageDetectionEvaluate thr (DetectOutcome.ok ((l, c) :: rest))
        src tgt lang).score = c * 100 ∧
      (languageDetectionEvaluate thr (DetectOutcome.ok ((l, c) :: rest))
        src tgt lang).warning = some WARN_LOW_CONFIDENCE) ∧
    (l ≠ lang →
      (languageDetectionEvaluate thr (DetectOutcome.ok ((l, c) :: rest))
        src tgt lang).score = 0 ∧
      (languageDetectionEvaluate thr (DetectOutcome.ok ((l, c) :: rest))
        src tgt lang).warning =
        some ("Language mismatch: expected " ++ quoteMark ++ lang ++ quoteMark ++
          ", detected " ++ quoteMark ++ l ++ quoteMark)) := by
  refine ⟨?_, ?_, ?_⟩
  · intro he hc
    subst he
    constructor <;> simp [languageDetectionEvaluate, hb, hc, not_lt.2 hc]
  · intro he hc
    subst he
    constructor <;> simp [languageDetectionEvaluate, hb, hc, not_le.2 hc]
  · intro hne
    constructor <;> simp [languageDetectionEvaluate, hb, hne]

/-- Witness for C6: a concrete confident match scores 100 without a
warning. -/
theorem language_match_cases_c6_witness :
    (languageDetectionEvaluate (4/5) (DetectOutcome.ok [("es", 9/10)])
      "x" "Hola mundo" "es").score = 100 ∧
    (languageDetectionEvaluate (4/5) (DetectOutcome.ok [("es", 9/10)])
      "x" "Hola mundo" "es").warning = none :=
  (language_match_cases_c6 (4/5) "x" "Hola mundo" "es" "es" (9/10) []
    (by decide)).1 rfl (by decide)

theorem numbersScore_eq_claimed (s t : String) :
    numbersScoreOf s t = claimedNumbersScore s t := by
  simp only [numbersScoreOf, claimedNumbersScore, calculate_preservation_score]
  by_cases h : extract_numbers s = []
  · simp [h]
  · have hne : (extract_numbers s).isEmpty = false := by
      simpa [List.isEmpty_iff] using h
    have hd : (extract_numbers s).dedup ≠ [] := by
      intro hh
      exact h (by simpa [List.dedup_eq_nil] using hh)
    have hlen : 0 < (extract_numbers s).dedup.length := List.length_pos.2 hd
    simp [hne, hlen, h]

/-- Claim C8: the numbers component equals the set-intersection formula
(100 when the source has no number token), its warning naming the
missing count is issued exactly when the component is below 100, and
the 100-and-50-cents example scores 100. -/
theorem preservation_numbers_c8 (cp ce : Bool) (s t : String)
    (hb : isBlank t = false) :
    (preservationEvaluate true cp ce s t).numbersScore =
      some (claimedNumbersScore s t) ∧
    numbersWarnings s t =
      (if claimedNumbersScore s t < 100 then
        [WARN_CONTENT_LOSS ++ ": " ++ toString (numbersMissing s t) ++
          " number(s) not preserved"]
       else []) ∧
    numbersScoreOf "The price is $100 and 50 cents."
      "El precio es $100 y 50 centavos." = 100 := by
  refine ⟨?_, ?_, by decide⟩
  · simp [preservationEvaluate, hb, numbersScore_eq_claimed]
  · rw [numbersWarnings, numbersScore_eq_claimed]

/-- Witness for C8 on the spec's concrete example pair. -/
theorem preservation_numbers_c8_witness :
    isBlank "El precio es $100 y 50 centavos." = false ∧
    (preservationEvaluate true true true "The price is $100 and 50 cents."
      "El precio es $100 y 50 centavos.").numbersScore =
      some (claimedNumbersScore "The price is $100 and 50 cents."
        "El precio es $100 y 50 centavos.") :=
  ⟨by decide,
    (preservation_numbers_c8 true true "The price is $100 and 50 cents."
      "El precio es $100 y 50 centavos." (by decide)).1⟩

/-! ## Range lemmas for claim C7 -/

theorem language_score_range_ok (thr : ℚ) (src tgt lang : String)
    (probs : List (String × ℚ)) (h : ∀ p ∈ probs, 0 ≤ p.2 ∧ p.2 ≤ 1) :
    scoreInRange (languageDetectionEvaluate thr (DetectOutcome.ok probs)
      src tgt lang).score := by
  rw [scoreInRange]
  by_cases hb : isBlank tgt
  · simp [languageDetectionEvaluate, hb]
  cases probs with
  | nil => simp [languageDetectionEvaluate, hb]
  | cons q rest =>
    obtain ⟨l, c⟩ := q
    have hc0 : 0 ≤ c := (h (l, c) (List.mem_cons_self _ _)).1
    have hc1 : c ≤ 1 := (h (l, c) (List.mem_cons_self _ _)).2
    simp only [languageDetectionEvaluate, hb, if_false, Bool.false_eq_true]
    split_ifs <;> constructor <;> nlinarith [hc0, hc1]

theorem language_score_range_err (thr : ℚ) (src tgt lang e : String) :
    scoreInRange (languageDetectionEvaluate thr (DetectOutcome.err e)
      src tgt lang).score := by
  rw [scoreInRange]
  simp only [languageDetectionEvaluate]
  split_ifs <;> norm_num

theorem lengthRatio_score_range (rmin rmax : ℚ) (src tgt : String) :
    scoreInRange (lengthRatioEvaluate rmin rmax src tgt).score := by
  by_cases h1 : src.length = 0
  · simp [scoreInRange, lengthRatioEvaluate, h1]
  by_cases h2 : tgt.length = 0
  · simp [scoreInRange, lengthRatioEvaluate, h1, h2]
  rw [scoreInRange]
  simp only [lengthRatioEvaluate, h1, h2, if_false]
  split_ifs with h3 h4 h5
  · -- in band, ratio below 1
    refine ⟨le_trans (by norm_num) (le_max_left 50 _), max_le (by norm_num) ?_⟩
    have hd : 0 < 1 - rmin := by
      have := h3.1
      linarith
    have hfrac := (div_le_one hd).2 (by linarith :
      (tgt.length : ℚ) / (src.length : ℚ) - rmin ≤ 1 - rmin)
    nlinarith [hfrac]
  · -- in band, ratio at least 1
    refine ⟨le_trans (by norm_num) (le_max_left 50 _), max_le (by norm_num) ?_⟩
    have h1r : (1 : ℚ) ≤ (tgt.length : ℚ) / (src.length : ℚ) := not_lt.1 h4
    have hrmax : (1 : ℚ) ≤ rmax := le_trans h1r h3.2
    rcases eq_or_lt_of_le hrmax with heq | hlt
    · have hr1 : (tgt.length : ℚ) / (src.length : ℚ) = 1 :=
        le_antisymm (heq ▸ h3.2) h1r
      rw [hr1, ← heq]
      norm_num
    · have hd : 0 < rmax - 1 := by linarith
      have hfrac := (div_le_one hd).2 (by linarith :
        rmax - (tgt.length : ℚ) / (src.length : ℚ) ≤ rmax - 1)
      nlinarith [hfrac]
  · -- outside band (either side)
    exact ⟨le_max_left 0 _,
      max_le (by norm_num) (le_trans (min_le_left 50 _) (by norm_num))⟩
  · exact ⟨le_max_left 0 _,
      max_le (by norm_num) (le_trans (min_le_left 50 _) (by norm_num))⟩

theorem calc_rep_range (ngrams : List (List Token)) :
    0 ≤ calculate_repetition_score ngrams ∧ calculate_repetition_score ngrams ≤ 1 := by
  by_cases h1 : ngrams.isEmpty
  · simp [calculate_repetition_score, h1]
  · have hnil : ngrams ≠ [] := by simpa [List.isEmpty_iff] using h1
    have h2 : ngrams.length ≠ 0 := fun hh => hnil (List.length_eq_zero.1 hh)
    have ht : (0 : ℚ) < (ngrams.length : ℚ) := by
      exact_mod_cast Nat.pos_of_ne_zero h2
    have hu : ((ngrams.dedup.length : ℚ)) ≤ (ngrams.length : ℚ) := by
      exact_mod_cast List.Sublist.length_le (List.dedup_sublist ngrams)
    have hrep0 : 0 ≤ 1 - ((ngrams.dedup.length : ℚ) / (ngrams.length : ℚ)) := by
      have := (div_le_one ht).2 hu
      linarith
    have hrep1 : 1 - ((ngrams.dedup.length : ℚ) / (ngrams.length : ℚ)) ≤ 1 := by
      have : 0 ≤ (ngrams.dedup.length : ℚ) / (ngrams.length : ℚ) :=
        div_nonneg (by positivity) (le_of_lt ht)
      linarith
    simp only [calculate_repetition_score]
    split_ifs with hA
    · exact ⟨le_trans hrep0 (le_max_left _ _), max_le hrep1 (min_le_right _ 1)⟩
    · exact ⟨hrep0, hrep1⟩

theorem repetition_score_range (maxN : Nat) (thr : ℚ) (src tgt : String) :
    scoreInRange (repetitionEvaluate maxN thr src tgt).score := by
  rw [scoreInRange]
  by_cases hb : isBlank tgt
  · simp [repetitionEvaluate, hb]
  · have hmem : ∀ x ∈ (repetitionEntries maxN tgt).map Prod.snd, x ≤ 1 := by
      intro x hx
      obtain ⟨p, hp, rfl⟩ := List.mem_map.1 hx
      obtain ⟨n, _, hf⟩ := List.mem_filterMap.1 hp
      by_cases he : (get_ngrams tgt n).isEmpty
      · rw [if_pos he] at hf
        cases hf
      · rw [if_neg he] at hf
        cases hf
        exact (calc_rep_range (get_ngrams tgt n)).2
    have hm0 : 0 ≤ ((repetitionEntries maxN tgt).map Prod.snd).foldl max 0 :=
      le_foldl_max _ 0
    have hm1 : ((repetitionEntries maxN tgt).map Prod.snd).foldl max 0 ≤ 1 :=
      foldl_max_le (by norm_num) hmem
    simp only [repetitionEvaluate]
    rw [if_neg hb]
    dsimp only
    constructor <;> nlinarith [hm0, hm1]

theorem calc_pres_range (a b : List Token) :
    0 ≤ calculate_preservation_score a b ∧ calculate_preservation_score a b ≤ 100 := by
  simp only [calculate_preservation_score]
  split_ifs with h1 h2
  · norm_num
  · have hp : (setInterCard a b : ℚ) ≤ (a.dedup.length : ℚ) := by
      exact_mod_cast List.length_filter_le _ _
    have ht : (0 : ℚ) < (a.dedup.length : ℚ) := by exact_mod_cast h2
    constructor
    · exact mul_nonneg (div_nonneg (by positivity) (le_of_lt ht)) (by norm_num)
    · have := (div_le_one ht).2 hp
      nlinarith
  · norm_num

theorem punct_score_range (s t : String) :
    0 ≤ punctScoreOf s t ∧ punctScoreOf s t ≤ 100 := by
  simp only [punctScoreOf]
  split_ifs with h
  · norm_num
  · have hne : extract_punctuation s ≠ [] := by
      simpa [List.isEmpty_iff] using h
    have ht : (0 : ℚ) < ((extract_punctuation s).length : ℚ) := by
      exact_mod_cast List.length_pos.2 hne
    have hp : (((extract_punctuation s).filter
        (fun c => decide (c ∈ extract_punctuation t))).length : ℚ) ≤
        ((extract_punctuation s).length : ℚ) := by
      exact_mod_cast List.length_filter_le _ _
    constructor
    · exact mul_nonneg (div_nonneg (by positivity) (le_of_lt ht)) (by norm_num)
    · have := (div_le_one ht).2 hp
      nlinarith

theorem mean_range (l : List ℚ) (h : ∀ x ∈ l, 0 ≤ x ∧ x ≤ 100) :
    0 ≤ (if l.isEmpty then (100 : ℚ) else l.sum / (l.length : ℚ)) ∧
    (if l.isEmpty then (100 : ℚ) else l.sum / (l.length : ℚ)) ≤ 100 := by
  split_ifs with he
  · norm_num
  · have hne : l ≠ [] := by simpa [List.isEmpty_iff] using he
    have hl : (0 : ℚ) < (l.length : ℚ) := by
      exact_mod_cast List.length_pos.2 hne
    have h0 : 0 ≤ l.sum := List.sum_nonneg (fun x hx => (h x hx).1)
    have h100 : l.sum ≤ (l.length : ℚ) * 100 := by
      calc l.sum ≤ l.length • (100 : ℚ) :=
            List.sum_le_card_nsmul l 100 (fun x hx => (h x hx).2)
        _ = (l.length : ℚ) * 100 := by rw [nsmul_eq_mul]
    constructor
    · exact div_nonneg h0 (le_of_lt hl)
    · rw [div_le_iff hl]
      linarith

theorem preservation_score_range (cn cp ce : Bool) (s t : String) :
    scoreInRange (preservationEvaluate cn cp ce s t).score := by
  rw [scoreInRange]
  by_cases hb : isBlank t
  · simp [preservationEvaluate, hb]
  · have hcomp : ∀ x ∈ preservationComponents cn cp ce s t, 0 ≤ x ∧ x ≤ 100 := by
      intro x hx
      rw [preservationComponents] at hx
      simp only [List.mem_append] at hx
      rcases hx with (hx | hx) | hx
      · by_cases hcn : cn = true
        · rw [if_pos hcn, List.mem_singleton] at hx
          subst hx
          rw [numbersScoreOf]
          exact calc_pres_range _ _
        · rw [if_neg hcn] at hx
          cases hx
      · by_cases hcp : cp = true
        · rw [if_pos hcp, List.mem_singleton] at hx
          subst hx
          exact punct_score_range s t
        · rw [if_neg hcp] at hx
          cases hx
      · by_cases hce : ce = true
        · rw [if_pos hce, List.mem_singleton] at hx
          subst hx
          rw [entityScoreOf]
          exact calc_pres_range _ _
        · rw [if_neg hce] at hx
          cases hx
    simp only [preservationEvaluate]
    rw [if_neg hb]
    dsimp only
    exact mean_range _ hcomp

theorem semantic_score_range (out : SemOutcome) (s t : String)
    (h : ∀ sim, out = SemOutcome.ok sim → sim ≤ 1) :
    scoreInRange (semanticEvaluate out s t).score := by
  rw [scoreInRange]
  cases out with
  | ok sim =>
    have hs := h sim rfl
    by_cases he : s = "" ∨ t = ""
    · simp [semanticEvaluate, he]
    · simp only [semanticEvaluate]
      rw [if_neg he]
      dsimp only
      constructor
      · exact mul_nonneg (le_max_left 0 sim) (by norm_num)
      · have hmax : max 0 sim ≤ 1 := max_le (by norm_num) hs
        nlinarith
  | err e =>
    by_cases he : s = "" ∨ t = ""
    · simp [semanticEvaluate, he]
    · simp only [semanticEvaluate]
      rw [if_neg he]
      dsimp only
      norm_num

theorem fusion_overall_range (cfg : FusionConfig) (l : List (String × MetricData))
    (h : ∀ p ∈ l, 0 ≤ p.2.score ∧ p.2.score ≤ 100) :
    scoreInRange (fuse_scores cfg l).overall_score := by
  rw [scoreInRange, fuse_overall_eq]
  split_ifs with hpos
  · have hker : ∀ p ∈ keptMetrics cfg l,
        0 ≤ get_metric_weight cfg p.1 ∧ 0 ≤ p.2.score ∧ p.2.score ≤ 100 := by
      intro p hp
      rw [keptMetrics, List.mem_filter, decide_eq_true_eq] at hp
      exact ⟨le_of_lt hp.2, h p hp.1⟩
    have hSW0 : 0 ≤ ((keptMetrics cfg l).map
        (fun p => p.2.score * get_metric_weight cfg p.1)).sum := by
      apply List.sum_nonneg
      intro x hx
      obtain ⟨p, hp, rfl⟩ := List.mem_map.1 hx
      exact mul_nonneg (hker p hp).2.1 (hker p hp).1
    have hSW100 : ((keptMetrics cfg l).map
        (fun p => p.2.score * get_metric_weight cfg p.1)).sum ≤
        100 * ((keptMetrics cfg l).map (fun p => get_metric_weight cfg p.1)).sum := by
      rw [← List.sum_map_mul_left]
      apply List.sum_le_sum
      intro p hp
      exact mul_le_mul_of_nonneg_right (hker p hp).2.2 (hker p hp).1
    constructor
    · exact div_nonneg hSW0 (le_of_lt hpos)
    · rw [div_le_iff hpos]
      linarith
  · norm_num

/-- Claim C7: every metric score lies in the interval from 0 to 100
(given the external contracts: detector confidences lie in the unit
interval, cosine similarity is at most 1), and the fused overall score
of in-range inputs is again in range. -/
theorem scores_in_range_c7 :
    (∀ (thr : ℚ) (src tgt lang : String) (probs : List (String × ℚ)),
      (∀ p ∈ probs, 0 ≤ p.2 ∧ p.2 ≤ 1) →
      scoreInRange (languageDetectionEvaluate thr (DetectOutcome.ok probs)
        src tgt lang).score) ∧
    (∀ (thr : ℚ) (src tgt lang e : String),
      scoreInRange (languageDetectionEvaluate thr (DetectOutcome.err e)
        src tgt lang).score) ∧
    (∀ (rmin rmax : ℚ) (src tgt : String),
      scoreInRange (lengthRatioEvaluate rmin rmax src tgt).score) ∧
    (∀ (maxN : Nat) (thr : ℚ) (src tgt : String),
      scoreInRange (repetitionEvaluate maxN thr src tgt).score) ∧
    (∀ (cn cp ce : Bool) (src tgt : String),
      scoreInRange (preservationEvaluate cn cp ce src tgt).score) ∧
    (∀ (out : SemOutcome) (src tgt : String),
      (∀ sim, out = SemOutcome.ok sim → sim ≤ 1) →
      scoreInRange (semanticEvaluate out src tgt).score) ∧
    (∀ (cfg : FusionConfig) (l : List (String × MetricData)),
      (∀ p ∈ l, 0 ≤ p.2.score ∧ p.2.score ≤ 100) →
      scoreInRange (fuse_scores cfg l).overall_score) :=
  ⟨language_score_range_ok, language_score_range_err, lengthRatio_score_range,
    repetition_score_range, preservation_score_range, semantic_score_range,
    fusion_overall_range⟩

/-- Witness for C7 at concrete inputs for every metric and the fusion. -/
theorem scores_in_range_c7_witness :
    scoreInRange (languageDetectionEvaluate (4/5)
      (DetectOutcome.ok [("es", 9/10)]) "a" "b" "es").score ∧
    scoreInRange (languageDetectionEvaluate (4/5)
      (DetectOutcome.err "boom") "a" "b" "es").score ∧
    scoreInRange (lengthRatioEvaluate (1/2) 2 "ab" "abcdefgh").score ∧
    scoreInRange (repetitionEvaluate 4 (3/10) "" "go go go").score ∧
    scoreInRange (preservationEvaluate true true true "Hi 5" "Yo 5").score ∧
    scoreInRange (semanticEvaluate (SemOutcome.ok (7/10)) "a" "b").score ∧
    scoreInRange (fuse_scores
      { language_detection_weight := 1, length_ratio_weight := 1,
        repetition_weight := 1, preservation_weight := 1, semantic_weight := 1 }
      [("repetition", { score := 60, warning := none })]).overall_score :=
  ⟨scores_in_range_c7.1 (4/5) "a" "b" "es" [("es", 9/10)] (by decide),
    scores_in_range_c7.2.1 (4/5) "a" "b" "es" "boom",
    scores_in_range_c7.2.2.1 (1/2) 2 "ab" "abcdefgh",
    scores_in_range_c7.2.2.2.1 4 (3/10) "" "go go go",
    scores_in_range_c7.2.2.2.2.1 true true true "Hi 5" "Yo 5",
    scores_in_range_c7.2.2.2.2.2.1 (SemOutcome.ok (7/10)) "a" "b"
      (fun sim hs => by cases hs; norm_num),
    scores_in_range_c7.2.2.2.2.2.2
      { language_detection_weight := 1, length_ratio_weight := 1,
        repetition_weight := 1, preservation_weight := 1, semantic_weight := 1 }
      [("repetition", { score := 60, warning := none })] (by decide)⟩
